import Mathlib

/-!
Verification of the chat question-input composer.

The repository holds two iterations of the same component:

* Strategy A (remote reference upload): the variant with
  `uploadedFileId`, `uploadedFileName` and `isUploading` state, whose
  `handleFileUpload` POSTs the file to a file-store collaborator.
* Strategy B (inline base64 encoding): the variant in
  `frontend/src/components/QuestionInput/QuestionInput.tsx`, whose
  `handleFileUpload` encodes the file locally with a `FileReader`.

Each component is embedded as an explicit state record plus pure
transition functions.  JavaScript strings are modelled as `String`
(character-list based); the `split` primitive used by the validator is
re-implemented character by character as `splitChar`, matching the JS
semantics for a single-character separator (the result list is never
empty, and splitting the empty string yields a single empty chunk).
JavaScript truthiness of a `string | null` value (`null`, `""` falsy)
is modelled by `truthy`.  Calls to the `onSend` collaborator and to
`alert` are returned as explicit data.
-/

/-- A selected file: the fields of the DOM `File` object the component
reads (`name` and the MIME `type`). -/
structure JSFile where
  name : String
  type : String
deriving DecidableEq, Repr

/-- JavaScript truthiness of a `string | null` value: `null` and the
empty string are falsy. -/
def truthy : Option String → Bool
  | none => false
  | some s => !(s == "")

/-- JS `s.trim()` on the character list of `s`: drops whitespace from
both ends. -/
def jsTrim (s : String) : List Char :=
  ((s.toList.dropWhile Char.isWhitespace).reverse.dropWhile Char.isWhitespace).reverse

/-- JS `s.startsWith(pre)` on character lists. -/
def jsStartsWith (s pre : String) : Bool :=
  pre.toList.isPrefixOf s.toList

/-- One part of a multimodal message content list, as assembled by
`sendQuestion` in either strategy. -/
inductive ContentPart where
  /-- The text part, tagged `type: "text"`. -/
  | text (t : String)
  /-- Strategy A file part: `type: "file", file: (file_id, name)`. -/
  | fileRef (fileId : String) (name : String)
  /-- Strategy B image part: `type: "image_url", image_url: (url)`. -/
  | imageUrl (url : String)
  /-- Strategy B non-image file part: `type: "file", file: (url, name)`. -/
  | fileUrl (url : String) (name : String)
deriving DecidableEq, Repr

/-- The content argument handed to the `onSend` collaborator: either a
plain string or an ordered list of typed parts. -/
inductive MessageContent where
  | str (s : String)
  | parts (ps : List ContentPart)
deriving DecidableEq, Repr

/-- One invocation of the `onSend` collaborator: the content and the
optional conversation id argument. -/
structure SendCall where
  content : MessageContent
  conversationId : Option String
deriving DecidableEq, Repr

/-- JS `s.split(sep)` for a single-character separator, on the
character list of `s`: never returns an empty list, and splitting the
empty list yields `[[]]`. -/
def splitChar (sep : Char) : List Char → List (List Char)
  | [] => [[]]
  | c :: cs =>
    let r := splitChar sep cs
    if c = sep then [] :: r
    else (c :: r.headD []) :: r.tail

/-- The extension computed by `handleFileUpload` in both strategies:
`"." + file.name.split(char).pop().toLowerCase()` with the character
being a dot, on character lists. -/
def jsFileExtension (name : String) : List Char :=
  '.' :: ((splitChar '.' name.toList).getLastD []).map Char.toLower

/-- The validator test shared by both strategies:
`allowedFileExtensions.split(comma).includes(fileExtension)`. -/
def extensionAllowed (allowedFileExtensions : String) (name : String) : Bool :=
  (splitChar ',' allowedFileExtensions.toList).contains (jsFileExtension name)

/-- The alert message shown when validation rejects a file, in both
strategies. -/
def notAllowedAlert (allowedFileExtensions : String) : String :=
  ("File type not allowed. Please upload one of the following file types: ")
    ++ allowedFileExtensions

/-- Component props common to both strategies. -/
structure Props where
  disabled : Bool
  clearOnSend : Bool
  conversationId : Option String
deriving DecidableEq, Repr

/-- The conversation-id argument actually passed to `onSend`:
`if (conversationId) onSend(c, conversationId) else onSend(c)`. -/
def sentConversationId (p : Props) : Option String :=
  if truthy p.conversationId then p.conversationId else none

/-- Strategy A composer state: the six `useState` cells of the
remote-reference variant plus the value of the `fileInput` DOM
control. -/
structure StateA where
  question : String
  base64File : Option String
  fileName : Option String
  selectedFile : Option JSFile
  uploadedFileId : Option String
  uploadedFileName : Option String
  isUploading : Bool
  fileInputValue : String
deriving DecidableEq, Repr

/-- Strategy B composer state: the four `useState` cells of the inline
variant plus the value of the `fileInput` DOM control. -/
structure StateB where
  question : String
  base64File : Option String
  fileName : Option String
  selectedFile : Option JSFile
  fileInputValue : String
deriving DecidableEq, Repr

/-- Outcome of the Strategy A upload request: a success JSON body
`(file_id, filename)`, a non-success response with a textual error
body, or a thrown exception with a message. -/
inductive UploadOutcome where
  | ok (fileId : String) (filename : String)
  | httpError (errorText : String)
  | exn (message : String)
deriving DecidableEq, Repr

/-- Strategy A `handleFileUpload`: clears every previous upload state,
then validates the selected file against the allow-list, and on
success runs the upload whose result is `outcome`.  Returns the new
state and the list of `alert` messages raised. -/
def handleFileUploadA (allowedFileExtensions : String) (file? : Option JSFile)
    (outcome : UploadOutcome) (s : StateA) : StateA × List String :=
  let s0 := { s with uploadedFileId := none, uploadedFileName := none,
                     base64File := none, selectedFile := none, fileName := none }
  match file? with
  | none => ({ s0 with fileInputValue := "" }, [])
  | some file =>
    if !(extensionAllowed allowedFileExtensions file.name) then
      ({ s0 with fileInputValue := "" }, [notAllowedAlert allowedFileExtensions])
    else
      let s1 := { s0 with selectedFile := some file, fileName := some file.name,
                          isUploading := true }
      match outcome with
      | .ok fid fname =>
        ({ s1 with uploadedFileId := some fid, uploadedFileName := some fname,
                   fileName := some fname, base64File := none,
                   isUploading := false }, [])
      | .httpError e =>
        ({ s1 with uploadedFileId := none, uploadedFileName := none,
                   fileName := none, selectedFile := none, base64File := none,
                   fileInputValue := "", isUploading := false },
         [("File upload failed: ") ++ e])
      | .exn m =>
        ({ s1 with uploadedFileId := none, uploadedFileName := none,
                   fileName := none, selectedFile := none, base64File := none,
                   fileInputValue := "", isUploading := false },
         [("File upload failed: ") ++ m])

/-- Strategy B `handleFileUpload` up to the start of the asynchronous
base64 encoding: validates the selected file and either rejects
(clearing the input control and the three attachment cells) or records
the selection.  The encoding completion is a separate event, modelled
by `base64Loaded`. -/
def handleFileUploadB (allowedFileExtensions : String) (file? : Option JSFile)
    (s : StateB) : StateB × List String :=
  match file? with
  | none => (s, [])
  | some file =>
    if !(extensionAllowed allowedFileExtensions file.name) then
      ({ s with fileInputValue := "", fileName := none, base64File := none,
                selectedFile := none },
       [notAllowedAlert allowedFileExtensions])
    else
      ({ s with selectedFile := some file, fileName := some file.name }, [])

/-- Strategy B `convertToBase64` completion: the `FileReader.onloadend`
callback storing the data URI. -/
def base64Loaded (dataUri : String) (s : StateB) : StateB :=
  { s with base64File := some dataUri }

/-- Strategy A `sendQuestion`: refuses when `disabled`, the trimmed
draft is empty, or an upload is in flight; otherwise assembles the
content (a file-reference part only when both `uploadedFileId` and
`uploadedFileName` are truthy), calls `onSend`, clears the draft when
`clearOnSend`, and resets every attachment cell and the file-input
value.  Returns the new state and the `onSend` call, when made. -/
def sendQuestionA (p : Props) (s : StateA) : StateA × Option SendCall :=
  if p.disabled || jsTrim s.question == [] || s.isUploading then (s, none)
  else
    let fileContentPart : Option ContentPart :=
      if truthy s.uploadedFileId && truthy s.uploadedFileName then
        some (.fileRef (s.uploadedFileId.getD ("")) (s.uploadedFileName.getD ("")))
      else none
    let questionTextPart := ContentPart.text s.question
    let contentForRequest : MessageContent :=
      match fileContentPart with
      | some fp => .parts [questionTextPart, fp]
      | none => .str s.question
    let call : SendCall := ⟨contentForRequest, sentConversationId p⟩
    let s1 := if p.clearOnSend then { s with question := "" } else s
    ({ s1 with base64File := none, fileName := none, selectedFile := none,
               uploadedFileId := none, uploadedFileName := none,
               fileInputValue := "" },
     some call)

/-- Strategy B `sendQuestion`: refuses when `disabled` or the trimmed
draft is empty; otherwise assembles the content (an inline part only
when `base64File`, `selectedFile` and `fileName` are all truthy, an
image part when the MIME type starts with the image prefix), calls
`onSend`, clears the draft when `clearOnSend`, and clears the three
attachment cells.  It does not touch the file-input value. -/
def sendQuestionB (p : Props) (s : StateB) : StateB × Option SendCall :=
  if p.disabled || jsTrim s.question == [] then (s, none)
  else
    let fileContentPart : Option ContentPart :=
      match s.base64File, s.selectedFile, s.fileName with
      | some b64, some f, some n =>
        if b64 == "" || n == "" then none
        else if jsStartsWith f.type ("image/") then some (.imageUrl b64)
        else some (.fileUrl b64 n)
      | _, _, _ => none
    let questionTextPart := ContentPart.text s.question
    let contentForRequest : MessageContent :=
      match fileContentPart with
      | some fp => .parts [questionTextPart, fp]
      | none => .str s.question
    let call : SendCall := ⟨contentForRequest, sentConversationId p⟩
    let s1 := if p.clearOnSend then { s with question := "" } else s
    ({ s1 with base64File := none, fileName := none, selectedFile := none },
     some call)

/-- Strategy A `clearUploadedFile`: clears the five attachment cells
and resets the file-input value. -/
def clearUploadedFile (s : StateA) : StateA :=
  { s with uploadedFileId := none, uploadedFileName := none, fileName := none,
           selectedFile := none, base64File := none, fileInputValue := "" }

/-- A keyboard event as read by `onEnterPress`: the key name, the
shift modifier, and the IME composition flag of the native event. -/
structure KeyEvent where
  key : String
  shiftKey : Bool
  isComposing : Bool
deriving DecidableEq, Repr

/-- The condition under which `onEnterPress` invokes `sendQuestion`:
the key is Enter, shift is not held, and no IME composition is in
progress. -/
def enterTriggersSend (ev : KeyEvent) : Bool :=
  ev.key == ("Enter") && !ev.shiftKey && !ev.isComposing

/-- Strategy A `onEnterPress`: when the trigger condition holds it
invokes `sendQuestionA` exactly once.  The first component records
whether `sendQuestion` was invoked; the last lists the `onSend` calls
made. -/
def onEnterPressA (ev : KeyEvent) (p : Props) (s : StateA) :
    Bool × StateA × List SendCall :=
  if enterTriggersSend ev then
    let r := sendQuestionA p s
    (true, r.1, r.2.toList)
  else (false, s, [])

/-- Strategy B `onEnterPress`: when the trigger condition holds it
invokes `sendQuestionB` exactly once. -/
def onEnterPressB (ev : KeyEvent) (p : Props) (s : StateB) :
    Bool × StateB × List SendCall :=
  if enterTriggersSend ev then
    let r := sendQuestionB p s
    (true, r.1, r.2.toList)
  else (false, s, [])

/-- The specified extension of a filename, stated independently of the
code: the characters after the last dot (all of them when no dot
occurs), obtained by reversing, taking up to the first dot, and
reversing back. -/
def specSuffixAfterLastDot (l : List Char) : List Char :=
  (l.reverse.takeWhile (fun c => c != '.')).reverse

/-- The specified extension string: the suffix after the last dot,
lower-cased, prefixed with a dot. -/
def specExtension (name : String) : List Char :=
  '.' :: (specSuffixAfterLastDot name.toList).map Char.toLower

/-- Helper: `splitChar` never returns an empty chunk list. -/
theorem splitChar_ne_nil (sep : Char) (l : List Char) : splitChar sep l ≠ [] := by
  cases l with
  | nil => simp [splitChar]
  | cons c cs =>
    simp only [splitChar]
    split <;> simp

/-- Helper: the number of chunks produced by `splitChar` is the number
of separators plus one. -/
theorem splitChar_length (sep : Char) (l : List Char) :
    (splitChar sep l).length = l.count sep + 1 := by
  induction l with
  | nil => simp [splitChar]
  | cons c cs ih =>
    by_cases hc : c = sep
    · simp [splitChar, hc, List.count_cons, ih]
    · obtain ⟨h, t, hht⟩ := List.exists_cons_of_ne_nil (splitChar_ne_nil sep cs)
      rw [hht] at ih
      simp only [splitChar, if_neg hc, hht]
      simp only [List.headD_cons, List.tail_cons, List.length_cons] at ih ⊢
      rw [List.count_cons]
      simp [hc, ih]

/-- Helper: `getLastD` ignores the default on a nonempty list. -/
theorem getLastD_irrel {α : Type} (l : List α) (d₁ d₂ : α) (h : l ≠ []) :
    l.getLastD d₁ = l.getLastD d₂ := by
  cases l with
  | nil => exact absurd rfl h
  | cons a as => rw [List.getLastD_cons, List.getLastD_cons]

/-- Helper: appending an element that fails the predicate does not
change `takeWhile`. -/
theorem takeWhile_concat_false {α : Type} (p : α → Bool) (l : List α) (a : α)
    (h : p a = false) : (l ++ [a]).takeWhile p = l.takeWhile p := by
  induction l with
  | nil => simp [List.takeWhile, h]
  | cons b bs ih =>
    simp only [List.cons_append, List.takeWhile_cons]
    cases hb : p b <;> simp [hb, ih]

/-- Helper: when some element of the first list fails the predicate,
`takeWhile` of an append never reaches the second list. -/
theorem takeWhile_append_stop {α : Type} (p : α → Bool) (l l₂ : List α)
    (h : ∃ x ∈ l, p x = false) : (l ++ l₂).takeWhile p = l.takeWhile p := by
  induction l with
  | nil =>
    obtain ⟨x, hx, _⟩ := h
    exact absurd hx (List.not_mem_nil x)
  | cons b bs ih =>
    obtain ⟨x, hx, hpx⟩ := h
    cases hb : p b with
    | false => simp [List.takeWhile_cons, hb]
    | true =>
      have hxbs : x ∈ bs := by
        rcases List.mem_cons.mp hx with hxb | hxbs
        · rw [hxb] at hpx; rw [hpx] at hb; exact absurd hb (by simp)
        · exact hxbs
      simp [List.takeWhile_cons, hb, ih ⟨x, hxbs, hpx⟩]

/-- Helper: the last chunk of `splitChar sep l` is the reversed
`takeWhile` of the reversed list, that is, the suffix of `l` after the
last separator (all of `l` when no separator occurs). -/
theorem splitChar_getLastD (sep : Char) (l : List Char) :
    (splitChar sep l).getLastD [] =
      (l.reverse.takeWhile (fun c => c != sep)).reverse := by
  induction l with
  | nil => simp [splitChar]
  | cons c cs ih =>
    rw [List.reverse_cons]
    by_cases hc : c = sep
    · rw [takeWhile_concat_false _ _ _ (by simp [hc])]
      simp only [splitChar, if_pos hc, List.getLastD_cons]
      exact ih
    · obtain ⟨h, t, hht⟩ := List.exists_cons_of_ne_nil (splitChar_ne_nil sep cs)
      have hlen := splitChar_length sep cs
      rw [hht] at hlen ih
      cases t with
      | nil =>
        have hcount : cs.count sep = 0 := by
          simp only [List.length_cons, List.length_nil] at hlen
          omega
        have hmem : sep ∉ cs := List.count_eq_zero.mp hcount
        have hall : cs.reverse.takeWhile (fun c => c != sep) = cs.reverse := by
          refine List.takeWhile_eq_self_iff.mpr ?_
          intro x hx
          have hxcs : x ∈ cs := List.mem_reverse.mp hx
          simp only [bne_iff_ne, ne_eq]
          intro hxs
          exact hmem (hxs ▸ hxcs)
        have hih : h = cs := by
          simpa [hall] using ih
        rw [List.takeWhile_append]
        simp only [splitChar, if_neg hc, hht, List.headD_cons, List.tail_cons]
        simp [hall, hih, hc]
      | cons x t₁ =>
        have hcount : cs.count sep ≠ 0 := by
          simp only [List.length_cons] at hlen
          omega
        have hmem : sep ∈ cs := by
          by_contra hn
          exact hcount (List.count_eq_zero.mpr hn)
        rw [takeWhile_append_stop _ _ _
          ⟨sep, List.mem_reverse.mpr hmem, by simp⟩]
        simp only [splitChar, if_neg hc, hht, List.headD_cons, List.tail_cons]
        rw [List.getLastD_cons, List.getLastD_cons] at ih ⊢
        exact ih

/-- Claim C1: whenever the draft trims to empty, or the external
disabled flag is set, or (Strategy A) an upload is in flight,
`sendQuestion` returns without calling the send collaborator and
without changing any composer state, in both strategies. -/
theorem claim_C1_send_gate (p : Props) (sa : StateA) (sb : StateB)
    (ha : p.disabled = true ∨ jsTrim sa.question = [] ∨ sa.isUploading = true)
    (hb : p.disabled = true ∨ jsTrim sb.question = []) :
    sendQuestionA p sa = (sa, none) ∧ sendQuestionB p sb = (sb, none) := by
  constructor
  · rcases ha with h | h | h <;> simp [sendQuestionA, h]
  · rcases hb with h | h <;> simp [sendQuestionB, h]

/-- Witness for C1 at a whitespace-only draft. -/
theorem claim_C1_send_gate_witness :
    sendQuestionA ⟨false, true, none⟩
      { question := "  ", base64File := none, fileName := none,
        selectedFile := none, uploadedFileId := some ("f1"),
        uploadedFileName := some ("a.pdf"), isUploading := false,
        fileInputValue := "" } =
      ({ question := "  ", base64File := none, fileName := none,
         selectedFile := none, uploadedFileId := some ("f1"),
         uploadedFileName := some ("a.pdf"), isUploading := false,
         fileInputValue := "" }, none) ∧
    sendQuestionB ⟨false, true, none⟩
      { question := "  ", base64File := none, fileName := none,
        selectedFile := none, fileInputValue := "" } =
      ({ question := "  ", base64File := none, fileName := none,
         selectedFile := none, fileInputValue := "" }, none) :=
  claim_C1_send_gate _ _ _ (Or.inr (Or.inl (by decide))) (Or.inr (by decide))

/-- Claim C2 counterexample: in a non-refused Strategy A submission
whose reference cells are both non-null but whose id is the empty
string, the reference is present yet the assembled content is the
plain draft string, not the two-part list the claim demands. -/
theorem claim_C2_counterexample :
    (let s : StateA :=
      { question := "hello", base64File := none, fileName := none,
        selectedFile := none, uploadedFileId := some (""),
        uploadedFileName := some ("a.pdf"), isUploading := false,
        fileInputValue := "" }
     s.uploadedFileId ≠ none ∧ s.uploadedFileName ≠ none ∧
     (sendQuestionA ⟨false, true, none⟩ s).2 =
       some ⟨MessageContent.str ("hello"), none⟩ ∧
     MessageContent.str ("hello") ≠
       MessageContent.parts
         [ContentPart.text ("hello"), ContentPart.fileRef ("") ("a.pdf")]) := by
  decide

/-- Claim C2 (amended): for every non-refused Strategy A submission,
when both reference cells hold non-empty strings the content handed
to the send collaborator is exactly the two-part list of the text part
and the file-reference part; when either cell is null or holds the
empty string, the content is exactly the plain draft string. -/
theorem claim_C2_content_assembly (p : Props) (s : StateA)
    (hd : p.disabled = false) (ht : jsTrim s.question ≠ [])
    (hu : s.isUploading = false) :
    (∀ fid fname, s.uploadedFileId = some fid → s.uploadedFileName = some fname →
      fid ≠ "" → fname ≠ "" →
      (sendQuestionA p s).2 =
        some ⟨.parts [.text s.question, .fileRef fid fname],
              sentConversationId p⟩) ∧
    ((truthy s.uploadedFileId && truthy s.uploadedFileName) = false →
      (sendQuestionA p s).2 = some ⟨.str s.question, sentConversationId p⟩) := by
  constructor
  · intro fid fname hid hname hfid hfname
    simp [sendQuestionA, hd, ht, hu, hid, hname, truthy, hfid, hfname]
  · intro hf
    have hf2 : ¬(truthy s.uploadedFileId = true ∧ truthy s.uploadedFileName = true) := by
      intro hand
      rw [hand.1, hand.2] at hf
      simp at hf
    simp [sendQuestionA, hd, ht, hu, hf2]

/-- Witness for the amended C2 at the instance of the spec example. -/
theorem claim_C2_content_assembly_witness :
    (sendQuestionA ⟨false, true, none⟩
      { question := "hello", base64File := none, fileName := none,
        selectedFile := none, uploadedFileId := some ("f1"),
        uploadedFileName := some ("a.pdf"), isUploading := false,
        fileInputValue := "" }).2 =
      some ⟨.parts [.text ("hello"), .fileRef ("f1") ("a.pdf")],
            sentConversationId ⟨false, true, none⟩⟩ :=
  (claim_C2_content_assembly _ _ rfl (by decide) rfl).1 _ _ rfl rfl
    (by decide) (by decide)

/-- Claim C3 counterexample: a non-refused Strategy B submission with
a non-empty file-input value leaves that value unchanged, so the
file-input control is not reset in both strategies. -/
theorem claim_C3_counterexample :
    (let s : StateB :=
      { question := "hi", base64File := some ("data"),
        fileName := some ("a.pdf"),
        selectedFile := some ⟨"a.pdf", "application/pdf"⟩,
        fileInputValue := "x" }
     ((sendQuestionB ⟨false, true, none⟩ s).2.isSome = true ∧
      ((sendQuestionB ⟨false, true, none⟩ s).1).fileInputValue = "x" ∧
      ("x" : String) ≠ "")) := by
  decide

/-- Claim C3 (amended): after every non-refused submission both
strategies null every attachment cell and clear the draft exactly when
clear-on-send is configured (preserving it verbatim otherwise);
Strategy A additionally resets the file-input value, while Strategy B
leaves the file-input value unchanged. -/
theorem claim_C3_post_send_reset (p : Props) (sa : StateA) (sb : StateB)
    (hd : p.disabled = false) (hta : jsTrim sa.question ≠ [])
    (hu : sa.isUploading = false) (htb : jsTrim sb.question ≠ []) :
    (let ra := (sendQuestionA p sa).1
     ra.uploadedFileId = none ∧ ra.uploadedFileName = none ∧
     ra.fileName = none ∧ ra.selectedFile = none ∧ ra.base64File = none ∧
     ra.fileInputValue = "" ∧
     ra.question = (if p.clearOnSend then "" else sa.question)) ∧
    (let rb := (sendQuestionB p sb).1
     rb.fileName = none ∧ rb.selectedFile = none ∧ rb.base64File = none ∧
     rb.fileInputValue = sb.fileInputValue ∧
     rb.question = (if p.clearOnSend then "" else sb.question)) := by
  cases hcl : p.clearOnSend <;>
    simp [sendQuestionA, sendQuestionB, hd, hta, hu, htb, hcl]

/-- Witness for the amended C3. -/
theorem claim_C3_post_send_reset_witness :
    (let ra := (sendQuestionA ⟨false, false, none⟩
      { question := "hi", base64File := none, fileName := some ("a.pdf"),
        selectedFile := none, uploadedFileId := some ("f1"),
        uploadedFileName := some ("a.pdf"), isUploading := false,
        fileInputValue := "v" }).1
     ra.uploadedFileId = none ∧ ra.uploadedFileName = none ∧
     ra.fileName = none ∧ ra.selectedFile = none ∧ ra.base64File = none ∧
     ra.fileInputValue = "" ∧
     ra.question = (if (false : Bool) then "" else ("hi" : String))) ∧
    (let rb := (sendQuestionB ⟨false, false, none⟩
      { question := "hi", base64File := some ("data"),
        fileName := some ("a.pdf"),
        selectedFile := some ⟨"a.pdf", "application/pdf"⟩,
        fileInputValue := "v" }).1
     rb.fileName = none ∧ rb.selectedFile = none ∧ rb.base64File = none ∧
     rb.fileInputValue =
       ({ question := "hi", base64File := some ("data"),
          fileName := some ("a.pdf"),
          selectedFile := some ⟨"a.pdf", "application/pdf"⟩,
          fileInputValue := "v" } : StateB).fileInputValue ∧
     rb.question = (if (false : Bool) then "" else ("hi" : String))) :=
  claim_C3_post_send_reset _ _ _ rfl (by decide) rfl (by decide)

/-- Claim C4: in Strategy A, for every upload ending in a non-success
HTTP status or a thrown exception, the user is alerted with the raw
error text (prefixed by the fixed failure label), every attachment
cell is null, the file-input value is cleared, and the uploading flag
ends false. -/
theorem claim_C4_upload_failure_reset (allowed : String) (f : JSFile)
    (out : UploadOutcome) (s : StateA) (e : String)
    (hok : extensionAllowed allowed f.name = true)
    (hout : out = .httpError e ∨ out = .exn e) :
    (handleFileUploadA allowed (some f) out s).2 =
      [("File upload failed: ") ++ e] ∧
    (let r := (handleFileUploadA allowed (some f) out s).1
     r.uploadedFileId = none ∧ r.uploadedFileName = none ∧
     r.fileName = none ∧ r.selectedFile = none ∧ r.base64File = none ∧
     r.fileInputValue = "" ∧ r.isUploading = false) := by
  rcases hout with h | h <;> subst h <;> simp [handleFileUploadA, hok]

/-- Witness for C4 at a failing upload of an allowed file. -/
theorem claim_C4_upload_failure_reset_witness :
    (handleFileUploadA (".pdf") (some ⟨"a.pdf", "application/pdf"⟩)
      (.httpError ("boom"))
      { question := "q", base64File := none, fileName := none,
        selectedFile := none, uploadedFileId := none,
        uploadedFileName := none, isUploading := false,
        fileInputValue := "v" }).2 =
      [("File upload failed: ") ++ ("boom")] ∧
    (let r := (handleFileUploadA (".pdf") (some ⟨"a.pdf", "application/pdf"⟩)
      (.httpError ("boom"))
      { question := "q", base64File := none, fileName := none,
        selectedFile := none, uploadedFileId := none,
        uploadedFileName := none, isUploading := false,
        fileInputValue := "v" }).1
     r.uploadedFileId = none ∧ r.uploadedFileName = none ∧
     r.fileName = none ∧ r.selectedFile = none ∧ r.base64File = none ∧
     r.fileInputValue = "" ∧ r.isUploading = false) :=
  claim_C4_upload_failure_reset _ _ _ _ _ (by decide) (Or.inl rfl)

/-- Claim C5: the validator computes the extension of the selected
filename as the characters after the last dot (the whole name when no
dot occurs), lower-cased and prefixed with a dot, and accepts the file
exactly when that string is a member of the configured allow-list
split on commas. -/
theorem claim_C5_validator_contract (allowedFileExtensions name : String) :
    jsFileExtension name = specExtension name ∧
    (extensionAllowed allowedFileExtensions name = true ↔
      specExtension name ∈ splitChar ',' allowedFileExtensions.toList) := by
  have hx : jsFileExtension name = specExtension name := by
    rw [jsFileExtension, specExtension, specSuffixAfterLastDot,
        splitChar_getLastD]
  refine ⟨hx, ?_⟩
  rw [extensionAllowed, hx]
  simp [List.contains]

/-- Claim C6: in both strategies, a selected file whose computed
extension is absent from the allow-list is rejected: the user-facing
message enumerating the allowed extensions is alerted, the file-input
value is cleared, and every attachment cell ends null. -/
theorem claim_C6_reject_disallowed (allowed : String) (f : JSFile)
    (out : UploadOutcome) (sa : StateA) (sb : StateB)
    (h : extensionAllowed allowed f.name = false) :
    handleFileUploadA allowed (some f) out sa =
      ({ sa with uploadedFileId := none, uploadedFileName := none,
                 base64File := none, selectedFile := none, fileName := none,
                 fileInputValue := "" },
       [notAllowedAlert allowed]) ∧
    handleFileUploadB allowed (some f) sb =
      ({ sb with fileInputValue := "", fileName := none, base64File := none,
                 selectedFile := none },
       [notAllowedAlert allowed]) := by
  constructor <;> simp [handleFileUploadA, handleFileUploadB, h]

/-- Witness for C6 at a file with a disallowed extension. -/
theorem claim_C6_reject_disallowed_witness :
    handleFileUploadA (".pdf") (some ⟨"a.exe", "application/binary"⟩)
      (.ok ("f1") ("a.exe"))
      { question := "q", base64File := some ("b"), fileName := some ("n"),
        selectedFile := none, uploadedFileId := some ("i"),
        uploadedFileName := some ("u"), isUploading := false,
        fileInputValue := "v" } =
      ({ question := "q", base64File := none, fileName := none,
         selectedFile := none, uploadedFileId := none,
         uploadedFileName := none, isUploading := false,
         fileInputValue := "" },
       [notAllowedAlert (".pdf")]) ∧
    handleFileUploadB (".pdf") (some ⟨"a.exe", "application/binary"⟩)
      { question := "q", base64File := some ("b"), fileName := some ("n"),
        selectedFile := none, fileInputValue := "v" } =
      ({ question := "q", base64File := none, fileName := none,
         selectedFile := none, fileInputValue := "" },
       [notAllowedAlert (".pdf")]) :=
  claim_C6_reject_disallowed _ _ _ _ _ (by decide)

/-- Claim C7: in both strategies a key event invokes the submission
routine exactly when the key is Enter, shift is not held, and no IME
composition is in progress; and a plain Enter press on an enabled
composer with a non-whitespace draft and no in-flight upload makes
exactly one call to the send collaborator. -/
theorem claim_C7_enter_submission (ev : KeyEvent) (p : Props) (sa : StateA)
    (sb : StateB) :
    ((onEnterPressA ev p sa).1 = true ↔
      (ev.key = "Enter" ∧ ev.shiftKey = false ∧ ev.isComposing = false)) ∧
    ((onEnterPressB ev p sb).1 = true ↔
      (ev.key = "Enter" ∧ ev.shiftKey = false ∧ ev.isComposing = false)) ∧
    (ev.key = "Enter" → ev.shiftKey = false → ev.isComposing = false →
      p.disabled = false → jsTrim sa.question ≠ [] → sa.isUploading = false →
      (onEnterPressA ev p sa).2.2.length = 1) := by
  refine ⟨?_, ?_, ?_⟩
  · cases hcond : enterTriggersSend ev with
    | true =>
      simp only [onEnterPressA, hcond]
      simp only [enterTriggersSend, Bool.and_eq_true, Bool.not_eq_true',
        beq_iff_eq] at hcond
      simp [hcond.1.1, hcond.1.2, hcond.2]
    | false =>
      simp only [onEnterPressA, hcond]
      simp only [enterTriggersSend, Bool.and_eq_false_iff, Bool.not_eq_false',
        beq_eq_false_iff_ne, ne_eq] at hcond
      rcases hcond with (h | h) | h <;> simp [h]
  · cases hcond : enterTriggersSend ev with
    | true =>
      simp only [onEnterPressB, hcond]
      simp only [enterTriggersSend, Bool.and_eq_true, Bool.not_eq_true',
        beq_iff_eq] at hcond
      simp [hcond.1.1, hcond.1.2, hcond.2]
    | false =>
      simp only [onEnterPressB, hcond]
      simp only [enterTriggersSend, Bool.and_eq_false_iff, Bool.not_eq_false',
        beq_eq_false_iff_ne, ne_eq] at hcond
      rcases hcond with (h | h) | h <;> simp [h]
  · intro hk hs hi hd ht hu
    have hcond : enterTriggersSend ev = true := by
      simp [enterTriggersSend, hk, hs, hi]
    simp [onEnterPressA, hcond, sendQuestionA, hd, ht, hu]

/-- Witness for C7 at a plain Enter press on a ready composer. -/
theorem claim_C7_enter_submission_witness :
    (onEnterPressA ⟨"Enter", false, false⟩ ⟨false, true, none⟩
      { question := "hi", base64File := none, fileName := none,
        selectedFile := none, uploadedFileId := none,
        uploadedFileName := none, isUploading := false,
        fileInputValue := "" }).2.2.length = 1 :=
  (claim_C7_enter_submission ⟨"Enter", false, false⟩ ⟨false, true, none⟩ _
    { question := "hi", base64File := none, fileName := none,
      selectedFile := none, fileInputValue := "" }).2.2
    rfl rfl rfl rfl (by decide) rfl

/-- Claim C8: allow-list membership is exact string equality against
the comma-split tokens, the computed extension always begins with a
dot and is never empty, splitting the empty configured allow-list
yields the single empty token, and with that configuration every
selected file is rejected. -/
theorem claim_C8_exact_membership (allowedFileExtensions name : String) :
    (extensionAllowed allowedFileExtensions name = true ↔
      ∃ tok ∈ splitChar ',' allowedFileExtensions.toList,
        tok = jsFileExtension name) ∧
    ((jsFileExtension name).head? = some '.') ∧
    (jsFileExtension name ≠ []) ∧
    (splitChar ',' ("" : String).toList = [[]]) ∧
    (extensionAllowed ("") name = false) := by
  refine ⟨?_, rfl, by simp [jsFileExtension], rfl, ?_⟩
  · rw [extensionAllowed]
    simp [List.contains]
  · rw [extensionAllowed]
    simp [List.contains, jsFileExtension, splitChar]

/-- Claim C9: Strategy B has no in-flight gate: a non-refused
submission issued after a file is selected but before the base64
encoding completes proceeds with plain-text-only content, and the
pending attachment cells are all reset to null. -/
theorem claim_C9_pending_attachment_dropped (p : Props) (s : StateB)
    (f : JSFile) (n : String)
    (hd : p.disabled = false) (ht : jsTrim s.question ≠ [])
    (hb : s.base64File = none) (hf : s.selectedFile = some f)
    (hn : s.fileName = some n) :
    (sendQuestionB p s).2 =
      some ⟨MessageContent.str s.question, sentConversationId p⟩ ∧
    (let r := (sendQuestionB p s).1
     r.base64File = none ∧ r.fileName = none ∧ r.selectedFile = none) := by
  simp [sendQuestionB, hd, ht, hb, hf, hn]

/-- Witness for C9 at a selection whose encoding is still pending. -/
theorem claim_C9_pending_attachment_dropped_witness :
    (sendQuestionB ⟨false, true, none⟩
      { question := "hi", base64File := none, fileName := some ("a.pdf"),
        selectedFile := some ⟨"a.pdf", "application/pdf"⟩,
        fileInputValue := "v" }).2 =
      some ⟨MessageContent.str ("hi"),
            sentConversationId ⟨false, true, none⟩⟩ ∧
    (let r := (sendQuestionB ⟨false, true, none⟩
      { question := "hi", base64File := none, fileName := some ("a.pdf"),
        selectedFile := some ⟨"a.pdf", "application/pdf"⟩,
        fileInputValue := "v" }).1
     r.base64File = none ∧ r.fileName = none ∧ r.selectedFile = none) :=
  claim_C9_pending_attachment_dropped _ _ ⟨"a.pdf", "application/pdf"⟩
    ("a.pdf") rfl (by decide) rfl rfl rfl

/-- Claim C10: Strategy A `clearUploadedFile` nulls the five
attachment cells and resets the file-input value, while leaving the
draft text and the uploading flag unchanged. -/
theorem claim_C10_clear_uploaded_file (s : StateA) :
    clearUploadedFile s =
      { question := s.question, base64File := none, fileName := none,
        selectedFile := none, uploadedFileId := none,
        uploadedFileName := none, isUploading := s.isUploading,
        fileInputValue := "" } := rfl
